import Mathlib

/-!
Verification of the airos-exporter data-access layer and metric pipeline.

The Python source (`airos_exporter.py`) is shallowly embedded below:

* `Config` / `DictX` (the hierarchical dot-key store) becomes a wrapper
  around an insertion-ordered association list of flat dotted keys;
* the `cached_property_with_ttl`-backed `AirOS` session becomes an
  explicit record of per-query cache slots together with a log of the
  remote commands issued;
* `airos_connect` becomes a trace-producing function over an oracle that
  says how each connection attempt turns out;
* the metric-derivation part of `application` becomes a program in
  `ExceptT String (StateM Reg)` whose state is the list of readings
  registered so far (registry `r`) plus the completed per-peer blocks
  (the `r2` registries appended to `rr`).

Machine-level numbers are modelled by `ℚ` (Python floats are used far
from any precision boundary here) and Python exceptions by
`Except String`.
-/

set_option autoImplicit false

deriving instance DecidableEq for Except

/-!
### Kernel-computable rational arithmetic

The standard `Rat.add`/`Rat.mul`/`Rat.div` do not reduce inside the
kernel, so concrete runs of the embedded program could not be settled by
`decide`.  The wrappers below compute through `Rat.divInt` (which does
reduce) and are proved equal to the standard operations, so general
theorems can still be stated with `+`, `-`, `*`, `/`.
-/

/-- Computable rational addition (provably `a + b`). -/
def qAdd (a b : ℚ) : ℚ :=
  Rat.divInt (a.num * (b.den : ℤ) + b.num * (a.den : ℤ)) ((a.den : ℤ) * (b.den : ℤ))

/-- Computable rational subtraction (provably `a - b`). -/
def qSub (a b : ℚ) : ℚ :=
  Rat.divInt (a.num * (b.den : ℤ) - b.num * (a.den : ℤ)) ((a.den : ℤ) * (b.den : ℤ))

/-- Computable rational multiplication (provably `a * b`). -/
def qMul (a b : ℚ) : ℚ :=
  Rat.divInt (a.num * b.num) ((a.den : ℤ) * (b.den : ℤ))

/-- Computable rational division (provably `a / b` for `b ≠ 0`). -/
def qDiv (a b : ℚ) : ℚ :=
  Rat.divInt (a.num * (b.den : ℤ)) ((a.den : ℤ) * b.num)

/-- Computable strict comparison of rationals. -/
def qLt (a b : ℚ) : Bool :=
  decide (a.num * (b.den : ℤ) < b.num * (a.den : ℤ))

theorem qAdd_eq (a b : ℚ) : qAdd a b = a + b := by
  rw [qAdd, Rat.divInt_eq_div]
  push_cast
  conv_rhs => rw [← Rat.num_div_den a, ← Rat.num_div_den b]
  have ha : (a.den : ℚ) ≠ 0 := by positivity
  have hb : (b.den : ℚ) ≠ 0 := by positivity
  field_simp
  try ring

theorem qSub_eq (a b : ℚ) : qSub a b = a - b := by
  rw [qSub, Rat.divInt_eq_div]
  push_cast
  conv_rhs => rw [← Rat.num_div_den a, ← Rat.num_div_den b]
  have ha : (a.den : ℚ) ≠ 0 := by positivity
  have hb : (b.den : ℚ) ≠ 0 := by positivity
  field_simp
  try ring

theorem qMul_eq (a b : ℚ) : qMul a b = a * b := by
  rw [qMul, Rat.divInt_eq_div]
  push_cast
  conv_rhs => rw [← Rat.num_div_den a, ← Rat.num_div_den b]
  have ha : (a.den : ℚ) ≠ 0 := by positivity
  have hb : (b.den : ℚ) ≠ 0 := by positivity
  field_simp
  try ring

theorem qDiv_eq (a b : ℚ) (hb : b ≠ 0) : qDiv a b = a / b := by
  rw [qDiv, Rat.divInt_eq_div]
  push_cast
  conv_rhs => rw [← Rat.num_div_den a, ← Rat.num_div_den b]
  have ha : (a.den : ℚ) ≠ 0 := by positivity
  have hd : (b.den : ℚ) ≠ 0 := by positivity
  have hn : (b.num : ℚ) ≠ 0 := Int.cast_ne_zero.mpr (Rat.num_ne_zero.mpr hb)
  field_simp
  try ring

/-- Python's `s.startswith(pre)`: the characters of `pre` are a prefix of
the characters of `s`. -/
def pyStartsWith (s pre : String) : Bool :=
  pre.data.isPrefixOf s.data

/-- Python `str.strip()` for the whitespace handling of `float()` /
`int()` argument conversion. -/
def stripWS (l : List Char) : List Char :=
  ((l.dropWhile Char.isWhitespace).reverse.dropWhile Char.isWhitespace).reverse

/-- Numeric value of a list of decimal digit characters. -/
def natOfDigits (l : List Char) : Nat :=
  l.foldl (fun a c => a * 10 + (c.toNat - 48)) 0

/-- Python `float(s)` on a string: optional sign, decimal digits with an
optional fractional part (the exponent form does not occur in the data
this program reads).  Failure is `ValueError`. -/
def pyFloat (s : String) : Except String ℚ :=
  let cs := stripWS s.data
  let signed : Bool × List Char :=
    match cs with
    | '-' :: rest => (true, rest)
    | '+' :: rest => (false, rest)
    | _ => (false, cs)
  let ip := signed.2.takeWhile Char.isDigit
  let rest := signed.2.dropWhile Char.isDigit
  let body : Except String ℚ :=
    match rest with
    | [] =>
      if ip.isEmpty then .error "ValueError: could not convert string to float"
      else .ok (natOfDigits ip : ℚ)
    | '.' :: rest2 =>
      let fp := rest2.takeWhile Char.isDigit
      if (rest2.dropWhile Char.isDigit).isEmpty && !(ip.isEmpty && fp.isEmpty) then
        .ok (mkRat (natOfDigits ip * 10 ^ fp.length + natOfDigits fp : ℕ) (10 ^ fp.length))
      else .error "ValueError: could not convert string to float"
    | _ => .error "ValueError: could not convert string to float"
  match body with
  | .ok q => .ok (if signed.1 then -q else q)
  | .error e => .error e

/-- Python `float(x)` where `x` came from `dict.get` and may be `None`. -/
def pyFloatOpt : Option String → Except String ℚ
  | some s => pyFloat s
  | none => .error "TypeError: float() argument must be a string or a number, not NoneType"

/-- Python `int(s)` on a string: optional sign, decimal digits only. -/
def pyIntStr (s : String) : Except String ℤ :=
  let cs := stripWS s.data
  let signed : Bool × List Char :=
    match cs with
    | '-' :: rest => (true, rest)
    | '+' :: rest => (false, rest)
    | _ => (false, cs)
  if signed.2.isEmpty || !signed.2.all Char.isDigit then
    .error "ValueError: invalid literal for int() with base 10"
  else
    .ok (if signed.1 then -(natOfDigits signed.2 : ℤ) else (natOfDigits signed.2 : ℤ))

/-- Python `int(x)` where `x` may be `None` (from `dict.get`). -/
def pyIntOpt : Option String → Except String ℤ
  | some s => pyIntStr s
  | none => .error "TypeError: int() argument must be a string or a number, not NoneType"

/-- Python `int()` applied to a float: truncation toward zero. -/
def pyTrunc (q : ℚ) : ℤ :=
  Int.tdiv q.num (q.den : ℤ)

/-- Python float division `a / b`, raising `ZeroDivisionError`. -/
def pyDivQ (a b : ℚ) : Except String ℚ :=
  if b = 0 then .error "ZeroDivisionError: division by zero" else .ok (qDiv a b)

theorem pyDivQ_eq (a b : ℚ) (hb : b ≠ 0) : pyDivQ a b = .ok (a / b) := by
  rw [pyDivQ, if_neg hb, qDiv_eq a b hb]

/-!
## The `Config` store (`Config`/`DictX` in the source)

A `Config` is a Python dict from flat dotted string keys to string
values, in insertion order (Python dicts preserve insertion order).
-/

/-- The hierarchical dot-key store `Config` of the source: a flat,
insertion-ordered map from dotted keys to string values. -/
structure Config where
  entries : List (String × String)
deriving DecidableEq

/-- Dict lookup among the explicitly present keys. -/
def Config.find (c : Config) (k : String) : Option String :=
  c.entries.lookup k

/-- `Config.__missing__`: the sub-store of all keys lying under the
dotted segment `key`, with the `key.` prefix stripped. -/
def subConfig (c : Config) (key : String) : Config :=
  ⟨c.entries.filterMap fun kv =>
    if pyStartsWith kv.1 (key ++ ".") then
      some (String.mk (kv.1.data.drop (key.length + 1)), kv.2)
    else none⟩

/-- `self[i]` for an integer index `i` (never an exact key of the
string-keyed dict, so `__missing__(i)` runs on `str(i)`). -/
def Config.subAt (c : Config) (i : Nat) : Config :=
  subConfig c (toString i)

/-- Result of a `Config` subscript: either a stored string value or the
(possibly empty) sub-store produced by `__missing__`. -/
inductive Entry where
  | str (s : String)
  | store (c : Config)
deriving DecidableEq

/-- `Config.__getitem__`: a present key yields its value, a missing key
runs `__missing__` and yields the prefix sub-store.  It is total: a
lookup never raises. -/
def Config.getitem (c : Config) (k : String) : Entry :=
  match c.find k with
  | some v => .str v
  | none => .store (subConfig c k)

/-- Python `self[key] = val` on a dict: update in place if the key is
present (keeping its position), else append. -/
def pySet (l : List (String × String)) (k v : String) : List (String × String) :=
  if l.any (fun kv => kv.1 = k) then
    l.map fun kv => if kv.1 = k then (k, v) else kv
  else l ++ [(k, v)]

/-- The deletion loop of `Config.change`: drop every entry whose key
starts with `key` (note: `startswith(key)`, not `startswith(key + ".")`). -/
def delStarting (l : List (String × String)) (key : String) : List (String × String) :=
  l.filter fun kv => !(pyStartsWith kv.1 key)

/-- The value argument of `Config.change`: string, bool, int, or a
structured map (a Python dict, in insertion order). -/
inductive Val where
  | str (s : String)
  | bool (b : Bool)
  | int (n : ℤ)
  | dict (l : List (String × Val))

mutual

/-- `Config.change`: delete every key starting with `key`, then store a
scalar at `key` (bool as `enabled`/`disabled`, int as its decimal
string) or recurse through a structured map joining sub-keys with `.`. -/
def Config.change (c : Config) (key : String) : Val → Config
  | .str s => ⟨pySet (delStarting c.entries key) key s⟩
  | .bool b => ⟨pySet (delStarting c.entries key) key (if b then "enabled" else "disabled")⟩
  | .int n => ⟨pySet (delStarting c.entries key) key (toString n)⟩
  | .dict l => Config.changeDict ⟨delStarting c.entries key⟩ key l

/-- The `for subkey in val.keys()` loop of `Config.change`. -/
def Config.changeDict (c : Config) (key : String) : List (String × Val) → Config
  | [] => c
  | (sub, v) :: rest => Config.changeDict (c.change (key ++ "." ++ sub) v) key rest

end

/-- Result of `Config.__iter__`: either the array-shaped walk over
numeric-index sub-stores, or plain dict key iteration. -/
inductive IterOut where
  | array (l : List Config)
  | plain (ks : List String)
deriving DecidableEq

/-- `takewhile(lambda x: x != \x7b\x7d, (self[i] for i in range(..)))`:
collect the sub-store at each successive index while it is non-empty,
with the `range` bound as fuel. -/
def arrayIterFrom (c : Config) : Nat → Nat → List Config
  | 0, _ => []
  | fuel + 1, i =>
    if (c.subAt i).entries = [] then [] else c.subAt i :: arrayIterFrom c fuel (i + 1)

/-- `Config.__iter__`: if some key starts with `0.` iterate indices from
0; else if some key starts with `1.` iterate from 1; else plain dict
iteration, which yields keys in insertion order. -/
def Config.iter (c : Config) : IterOut :=
  if c.entries.any (fun kv => pyStartsWith kv.1 "0.") then
    .array (arrayIterFrom c (2 ^ 32) 0)
  else if c.entries.any (fun kv => pyStartsWith kv.1 "1.") then
    .array (arrayIterFrom c (2 ^ 32 - 1) 1)
  else
    .plain (c.entries.map Prod.fst)

/-- Lexicographic code-point comparison of character lists: Python's
`<=` on strings. -/
def charLe : List Char → List Char → Bool
  | [], _ => true
  | _ :: _, [] => false
  | a :: as, b :: bs => if a = b then charLe as bs else decide (a < b)

/-- Python string comparison `a <= b`. -/
def pyStrLe (a b : String) : Bool :=
  charLe a.data b.data

/-- The order used by `sorted` in `Config.__str__`, as a proposition. -/
def keyLe (a b : String) : Prop :=
  pyStrLe a b = true

instance : DecidableRel keyLe := fun a b => by
  unfold keyLe; infer_instance

/-- The `sorted(self.keys())` of `Config.__str__` (Python `sorted` on
strings is lexicographic on code points; keys are distinct). -/
def sortKeys (c : Config) : List String :=
  List.insertionSort keyLe (c.entries.map Prod.fst)

/-- `Config.__str__`: one `key=value` line per key, keys sorted.  Every
iterated key is present, so `self[key]` is its stored value. -/
def Config.render (c : Config) : String :=
  String.intercalate "\n" ((sortKeys c).map fun k => k ++ "=" ++ ((c.find k).getD ""))

/-!
## Heap-level view of `Config.__missing__` (aliasing / frame behaviour)

`__missing__` builds a brand-new dict by comprehension and returns it
without inserting anything into `self` (unlike `defaultdict`).  To state
that as a frame property we give the store a heap semantics: a heap is a
list of dict cells, an object is an address (its index), and
`__missing__` allocates a fresh cell.
-/

/-- A heap of `Config` objects: cell `a` is the entry list of the dict at
address `a`. -/
structure ConfigHeap where
  cells : List (List (String × String))
deriving DecidableEq

/-- Contents of the dict at address `a`. -/
def heapGet (h : ConfigHeap) (a : Nat) : List (String × String) :=
  (h.cells.get? a).getD []

/-- `Config.__missing__` on the object at address `a`: build the stripped
sub-dictionary from the parent's entries and allocate it as a fresh
object, returning the new heap and the child's address.  The parent cell
is read, never written. -/
def missingLookup (h : ConfigHeap) (a : Nat) (key : String) : ConfigHeap × Nat :=
  let sub := (heapGet h a).filterMap fun kv =>
    if pyStartsWith kv.1 (key ++ ".") then
      some (String.mk (kv.1.data.drop (key.length + 1)), kv.2)
    else none
  (⟨h.cells ++ [sub]⟩, h.cells.length)

/-- `self[k] = v` on the dict at address `a` (mutates only that cell). -/
def setItem (h : ConfigHeap) (a : Nat) (k v : String) : ConfigHeap :=
  ⟨h.cells.set a (pySet (heapGet h a) k v)⟩

/-!
## The TTL-cached session (`AirOS` and its `read_*` methods)

`cached_property_with_ttl(ttl=5)` stores `(value, fetch_time)` in the
instance `__dict__` under the property's name; an access re-runs the
remote query iff nothing is stored or `ttl < now - fetch_time`
(modelled from the `cached_property` library the source decorates with).
The `read_*` methods are repository code: `del self.__dict__[name]`
followed by a property access; `del` raises `KeyError` when the name is
not cached.  Remote query results are abstracted to `Nat` and provided
by an oracle taking the command and the current time; each model
operation also returns the list of remote commands it issued.
-/

/-- The cache slots of one `AirOS` session: for each cached property,
`none` (not in `__dict__`) or `some (value, fetchTime)`. -/
structure AirOS where
  status : Option (Nat × ℚ)
  status_iter : Option (Nat × ℚ)
  wstalist : Option (Nat × ℚ)
  mcastatus : Option (Nat × ℚ)
deriving DecidableEq

/-- The TTL test of `cached_property_with_ttl`: refetch iff
`ttl < now - last_updated` with `ttl = 5`. -/
def ttlExpired (now t : ℚ) : Bool :=
  qLt 5 (qSub now t)

/-- One cached-property access: return the cached value if fresh,
otherwise run the query and store `(value, now)`.  Result: value, new
slot, and whether a remote query was issued. -/
def propGet (slot : Option (Nat × ℚ)) (now : ℚ) (fetched : Nat) :
    Nat × Option (Nat × ℚ) × Bool :=
  match slot with
  | some (v, t) => if ttlExpired now t then (fetched, some (fetched, now), true) else (v, slot, false)
  | none => (fetched, some (fetched, now), true)

/-- The `airos.status` property access (command `ubntbox status`). -/
def statusProp (s : AirOS) (now : ℚ) (oracle : String → ℚ → Nat) :
    Nat × AirOS × List String :=
  let r := propGet s.status now (oracle "ubntbox status" now)
  (r.1, { s with status := r.2.1 }, if r.2.2 then ["ubntbox status"] else [])

/-- The `airos.status_iter` property access (same remote command, its own
cache slot). -/
def statusIterProp (s : AirOS) (now : ℚ) (oracle : String → ℚ → Nat) :
    Nat × AirOS × List String :=
  let r := propGet s.status_iter now (oracle "ubntbox status" now)
  (r.1, { s with status_iter := r.2.1 }, if r.2.2 then ["ubntbox status"] else [])

/-- `AirOS.read_status`: `del self.__dict__[..status..]` then return
`self.status`.  After a successful `del` the slot is empty, so the
property access always refetches. -/
def read_status (s : AirOS) (now : ℚ) (oracle : String → ℚ → Nat) :
    Except String (Nat × AirOS × List String) :=
  match s.status with
  | none => .error "KeyError: status"
  | some _ =>
    let v := oracle "ubntbox status" now
    .ok (v, { s with status := some (v, now) }, ["ubntbox status"])

/-- `AirOS.read_status_iter` as written in the source: it deletes
`self.__dict__[..status..]` — not the `status_iter` slot — and then
returns `self.status`, the `status` property. -/
def read_status_iter (s : AirOS) (now : ℚ) (oracle : String → ℚ → Nat) :
    Except String (Nat × AirOS × List String) :=
  match s.status with
  | none => .error "KeyError: status"
  | some _ =>
    let v := oracle "ubntbox status" now
    .ok (v, { s with status := some (v, now) }, ["ubntbox status"])

/-- `AirOS.read_wstalist`: `del self.__dict__[..wstalist..]` then return
`self.wstalist` (command `wstalist`). -/
def read_wstalist (s : AirOS) (now : ℚ) (oracle : String → ℚ → Nat) :
    Except String (Nat × AirOS × List String) :=
  match s.wstalist with
  | none => .error "KeyError: wstalist"
  | some _ =>
    let v := oracle "wstalist" now
    .ok (v, { s with wstalist := some (v, now) }, ["wstalist"])

/-- `AirOS.read_mcastatus`: `del self.__dict__[..mcastatus..]` then
return `self.mcastatus` (command `ubntbox mca-status`). -/
def read_mcastatus (s : AirOS) (now : ℚ) (oracle : String → ℚ → Nat) :
    Except String (Nat × AirOS × List String) :=
  match s.mcastatus with
  | none => .error "KeyError: mcastatus"
  | some _ =>
    let v := oracle "ubntbox mca-status" now
    .ok (v, { s with mcastatus := some (v, now) }, ["ubntbox mca-status"])

/-!
## `airos_connect`: bounded retry with fixed delay

The loop makes up to 9 attempts: `AuthenticationException` re-raises
immediately, any other `SSHException` (the retryable transport failures)
prints, sleeps 2 seconds and retries; success returns the session.  If
all 9 loop attempts fail, a final bare attempt is made outside any
handler, so its exception — whatever it is — propagates to the caller.
-/

/-- How one connection attempt turns out. -/
inductive Outcome where
  | success
  | authFail
  | transportFail
deriving DecidableEq

/-- The error surfaced to `airos_connect`'s caller. -/
inductive ConnErr where
  | auth
  | transport
deriving DecidableEq

/-- Observable events of a run of `airos_connect`. -/
inductive ConnEvent where
  | attempt (i : Nat)
  | sleepSec (n : Nat)
deriving DecidableEq

/-- The `for _ in range(9)` loop of `airos_connect` with `fuel`
remaining iterations, about to make attempt `i`; when the loop is
exhausted, the final bare `AirOS(...)` call is made. -/
def connectLoop (oracle : Nat → Outcome) : Nat → Nat → List ConnEvent × Except ConnErr Unit
  | 0, i =>
    ([.attempt i],
      match oracle i with
      | .success => .ok ()
      | .authFail => .error .auth
      | .transportFail => .error .transport)
  | fuel + 1, i =>
    match oracle i with
    | .success => ([.attempt i], .ok ())
    | .authFail => ([.attempt i], .error .auth)
    | .transportFail =>
      let r := connectLoop oracle fuel (i + 1)
      (.attempt i :: .sleepSec 2 :: r.1, r.2)

/-- `airos_connect`: 9 retried attempts, then one final attempt whose
failure propagates. -/
def airos_connect (oracle : Nat → Outcome) : List ConnEvent × Except ConnErr Unit :=
  connectLoop oracle 9 0

example :
    (missingLookup ⟨[[("a.b", "x")]]⟩ 0 "a").2 = 1 ∧
    heapGet (missingLookup ⟨[[("a.b", "x")]]⟩ 0 "a").1 1 = [("b", "x")] := by decide
example :
    read_status_iter ⟨none, some (7, 0), none, none⟩ 1 (fun _ _ => 42) =
      .error "KeyError: status" := by decide
example :
    read_status_iter ⟨some (5, 0), some (7, 0), none, none⟩ 1 (fun _ _ => 42) =
      .ok (42, ⟨some (42, 1), some (7, 0), none, none⟩, ["ubntbox status"]) := by decide
example :
    airos_connect (fun _ => .authFail) = ([.attempt 0], .error .auth) := by decide
example :
    (airos_connect fun _ => .transportFail).2 = .error .transport := by decide
example :
    (airos_connect fun i => if i < 9 then .transportFail else .success).2 = .ok () := by decide

example : pyFloat "1.5" = .ok (mkRat 3 2) := by decide
example : pyFloat " -2.25 " = .ok (mkRat (-9) 4) := by decide
example : pyIntStr "3600" = .ok 3600 := by decide
example : pyTrunc (Rat.divInt 5 2) = 2 := by decide
example : subConfig ⟨[("a.b", "x"), ("c", "y")]⟩ "a" = ⟨[("b", "x")]⟩ := by decide
example : Config.iter ⟨[("0.a", "x"), ("1.a", "y")]⟩ =
    .array [⟨[("a", "x")]⟩, ⟨[("a", "y")]⟩] := by decide
example : Config.iter ⟨[("1.a", "x"), ("2.a", "y")]⟩ =
    .array [⟨[("a", "x")]⟩, ⟨[("a", "y")]⟩] := by decide
example : Config.iter ⟨[("b", "1"), ("a", "2")]⟩ = .plain ["b", "a"] := by decide
example : Config.change ⟨[]⟩ "k" (.dict [("a", .str "x"), ("b", .int 2)]) =
    ⟨[("k.a", "x"), ("k.b", "2")]⟩ := by decide
example : Config.render ⟨[("b", "1"), ("a", "2")]⟩ = "a=2\nb=1" := by decide

/-!
## JSON values and the Python coercions used by the pipeline

`json.load(..., object_hook=DictX)` turns every decoded object into a
`DictX`, so subscripting a decoded object with a missing (or integer)
key yields an empty `DictX` instead of raising.
-/

/-- A decoded JSON value. -/
inductive J where
  | null
  | bool (b : Bool)
  | num (q : ℚ)
  | str (s : String)
  | arr (l : List J)
  | obj (l : List (String × J))

/-- Python `x.get(k, d)`: defined on dicts, `AttributeError` on anything
else. -/
def jGetD (j : J) (k : String) (d : J) : Except String J :=
  match j with
  | .obj l => .ok ((l.lookup k).getD d)
  | _ => .error "AttributeError: object has no attribute get"

/-- Python `x[i]` for a non-negative integer `i`: list indexing with
`IndexError` out of range; on a decoded object it runs
`DictX.__missing__` and yields an empty `DictX`; strings index to
one-character strings; anything else is a `TypeError`. -/
def jIndex (j : J) (i : Nat) : Except String J :=
  match j with
  | .arr l =>
    match l.get? i with
    | some x => .ok x
    | none => .error "IndexError: list index out of range"
  | .obj _ => .ok (J.obj [])
  | .str s =>
    match s.data.get? i with
    | some c => .ok (J.str (String.mk [c]))
    | none => .error "IndexError: string index out of range"
  | _ => .error "TypeError: object is not subscriptable"

/-- `remote[k]` on a decoded object (`DictX.__getitem__`): a missing key
yields an empty `DictX`; subscripting a non-dict raises. -/
def dictxItem (j : J) (k : String) : Except String J :=
  match j with
  | .obj l => .ok ((l.lookup k).getD (J.obj []))
  | _ => .error "TypeError: object is not subscriptable"

/-- Python `float(x)` on a decoded JSON value. -/
def pyFloatJ : J → Except String ℚ
  | .num q => .ok q
  | .bool b => .ok (if b then 1 else 0)
  | .str s => pyFloat s
  | .null => .error "TypeError: float() argument must be a string or a number, not NoneType"
  | _ => .error "TypeError: float() argument must be a string or a number"

/-- A decoded value used as an operand of arithmetic or an order
comparison: numbers and bools coerce, everything else is a `TypeError`
(strings do not coerce in arithmetic). -/
def pyNumJ : J → Except String ℚ
  | .num q => .ok q
  | .bool b => .ok (if b then 1 else 0)
  | _ => .error "TypeError: unsupported operand type"

/-- Python `a / b` on decoded values. -/
def pyDivJ (a b : J) : Except String ℚ := do
  let x ← pyNumJ a
  let y ← pyNumJ b
  pyDivQ x y

/-- Python `int(x)` on a decoded JSON value (floats truncate toward
zero). -/
def pyIntJ : J → Except String ℤ
  | .num q => .ok (pyTrunc q)
  | .bool b => .ok (if b then 1 else 0)
  | .str s => pyIntStr s
  | .null => .error "TypeError: int() argument must be a string or a number, not NoneType"
  | _ => .error "TypeError: int() argument must be a string or a number"

/-- Python `str(x)` as the prometheus client applies it to label values.
`DictX.__str__` renders an empty dict as the empty string; the exact
rendering of other non-string values is irrelevant to the claims and is
kept opaque but deterministic. -/
def pyStrJ : J → String
  | .str s => s
  | .num q => if q.den = 1 then toString q.num else toString q.num ++ "/" ++ toString q.den
  | .bool b => if b then "True" else "False"
  | .null => "None"
  | .obj [] => ""
  | .obj _ => "<dict>"
  | .arr _ => "<list>"

/-- Python truthiness of a decoded value. -/
def truthy : J → Bool
  | .null => false
  | .bool b => b
  | .num q => if q = 0 then false else true
  | .str s => if s = "" then false else true
  | .arr l => !l.isEmpty
  | .obj l => !l.isEmpty

/-- `str()` of an optional string, as the prometheus label conversion
sees a `dict.get` result (`None` renders as its repr). -/
def pyStr (o : Option String) : String :=
  o.getD "None"

/-- Lookup in the parsed `mca-status` key-value mapping (`dict.get`). -/
def mcaGet (m : List (String × String)) (k : String) : Option String :=
  m.lookup k

/-!
## The metric-derivation pipeline of `application`

State: the readings registered so far in registry `r` (in registration
order, which is serialization order) and the completed per-peer `r2`
registries appended to `rr`.  A `Gauge(...).labels(...).set(v)`
statement first creates the labelled child (which serializes with value
0 if nothing is ever set) and then computes/sets the value, so a failing
value computation leaves a zero-valued reading behind; `Counter.inc`
additionally rejects negative amounts.
-/

/-- A serialized sample: metric name, label pairs in declaration order,
value. -/
structure Reading where
  name : String
  labels : List (String × String)
  value : ℚ
deriving DecidableEq

/-- The registries of one scrape: `r` (device metrics, in registration
order) and the completed per-peer registries appended to `rr`. -/
structure Reg where
  r : List Reading
  peers : List (List Reading)
deriving DecidableEq

/-- The monad of the `try` block: Python exceptions over the mutable
registry state. -/
abbrev Collect := ExceptT String (StateM Reg)

/-- Run a `Collect` program: result (or uncaught exception) plus the
final registry state. -/
def runCollect {α : Type} (x : Collect α) (reg : Reg) : Except String α × Reg :=
  (x.run).run reg

/-- Re-raise a Python-level `Except` inside the `try` block. -/
def ofE {α : Type} : Except String α → Collect α
  | .ok a => pure a
  | .error e => throw e

/-- `Gauge(...).labels(**lbls).set(v)`: the labelled child is registered
first; if computing the value raises, the child stays at 0 and the
exception propagates. -/
def gaugeStep (lbls : List (String × String)) (name : String) (v : Except String ℚ) :
    Collect Unit :=
  match v with
  | .ok q => modify fun s => { s with r := s.r ++ [⟨name, lbls, q⟩] }
  | .error e => do
    modify fun s => { s with r := s.r ++ [⟨name, lbls, 0⟩] }
    throw e

/-- `Counter(...).labels(**lbls).inc(v)`: like a gauge, but `inc`
raises `ValueError` on a negative amount. -/
def counterStep (lbls : List (String × String)) (name : String) (v : Except String ℚ) :
    Collect Unit :=
  match v with
  | .ok q =>
    if qLt q 0 then do
      modify fun s => { s with r := s.r ++ [⟨name, lbls, 0⟩] }
      throw "ValueError: Counters can only be incremented by non-negative amounts"
    else
      modify fun s => { s with r := s.r ++ [⟨name, lbls, q⟩] }
  | .error e => do
    modify fun s => { s with r := s.r ++ [⟨name, lbls, 0⟩] }
    throw e

/-- The device-scoped label set built from the parsed `mca-status`
mapping (lines 156-161 of the source). -/
def labelsOf (m : List (String × String)) : List (String × String) :=
  [("ap_mac", pyStr (mcaGet m "apMac")),
   ("device_id", pyStr (mcaGet m "deviceId")),
   ("device_name", pyStr (mcaGet m "deviceName")),
   ("wireless_mode", (mcaGet m "wlanOpmode").getD "")]

/-- `airos.status.get("board", ...).get("radio", ...)[0].get("antenna",
...)[0].get("gain", 0)` followed by the float coercion of `Gauge.set`. -/
def antennaGain (st : J) : Except String ℚ := do
  let brd ← jGetD st "board" (J.obj [])
  let radio ← jGetD brd "radio" (J.arr [J.obj []])
  let r0 ← jIndex radio 0
  let ant ← jGetD r0 "antenna" (J.arr [J.obj []])
  let a0 ← jIndex ant 0
  let g ← jGetD a0 "gain" (J.num 0)
  pyFloatJ g

/-- The wireless-utilization sub-object: `airos.status.get("interfaces",
[..])[2].get("wireless", ..).get("utilization", ..)` — the network
interface at the fixed index 2. -/
def utilView (st : J) : Except String J := do
  let ifaces ← jGetD st "interfaces" (J.arr [J.obj []])
  let e2 ← jIndex ifaces 2
  let w ← jGetD e2 "wireless" (J.obj [])
  jGetD w "utilization" (J.obj [])

/-- The airtime busy percentages: `rx_busy / busy * 100` and
`tx_busy / busy * 100`, truncated to integer by `int(...)`. -/
def busyPercs (util : J) : Except String (ℤ × ℤ) := do
  let b ← jGetD util "busy" J.null
  let rx ← jGetD util "rx_busy" J.null
  let tx ← jGetD util "tx_busy" J.null
  let rq ← pyDivJ rx b
  let tq ← pyDivJ tx b
  .ok (pyTrunc (qMul rq 100), pyTrunc (qMul tq 100))

/-- Busy percentages straight from the structured status view. -/
def statusBusy (st : J) : Except String (ℤ × ℤ) := do
  busyPercs (← utilView st)

/-- Python `sub in s` on strings: substring containment. -/
def containsSub (needle : List Char) : List Char → Bool
  | [] => needle.isEmpty
  | c :: rest => needle.isPrefixOf (c :: rest) || containsSub needle rest

/-- `len([1 for s in wstalist if "remote" in s])`. -/
def countRemote : List J → Except String Nat
  | [] => .ok 0
  | s :: rest => do
    let b ←
      match s with
      | .obj l => Except.ok (l.any fun kv => kv.1 = "remote")
      | .str t => Except.ok (containsSub ("remote".data) t.data)
      | _ => Except.error "TypeError: argument is not iterable"
    let n ← countRemote rest
    .ok (if b then n + 1 else n)

/-- One iteration of the per-peer loop: builds the peer's `r2` registry.
If anything in it raises, the whole block is discarded (the `r2` is
never appended to `rr`) and the exception propagates. -/
def peerBlock (lbls : List (String × String)) (m : List (String × String)) (remote : J) :
    Except String (List Reading) := do
  let macV ← dictxItem remote "mac"
  let lastipV ← dictxItem remote "lastip"
  let rsub ← jGetD remote "remote" (J.obj [])
  let nameDefault ← jGetD remote "name" (J.str "")
  let hostV ← jGetD rsub "hostname" nameDefault
  let rsub2 ← jGetD remote "remote" (J.obj [])
  let platformV ← jGetD rsub2 "platform" J.null
  let rsub3 ← jGetD remote "remote" (J.obj [])
  let versionV ← jGetD rsub3 "version" J.null
  let lbls2 := lbls ++
    ([("remote_mac", pyStrJ macV), ("remote_lastip", pyStrJ lastipV),
      ("remote_hostname", pyStrJ hostV)] ++
     (if truthy platformV then [("remote_platform", pyStrJ platformV)] else []) ++
     (if truthy versionV then [("remote_version", pyStrJ versionV)] else []))
  let ccq ← pyFloatJ (← jGetD remote "ccq" J.null)
  let txRate ← pyFloatJ (← jGetD remote "tx" J.null)
  let rxRate ← pyFloatJ (← jGetD remote "rx" J.null)
  let txLat ← pyFloatJ (← jGetD remote "tx_latency" (J.num 0))
  let rssi ← pyFloatJ (← jGetD remote "rssi" J.null)
  let txpower ← pyFloatJ (← jGetD remote "txpower" J.null)
  let signal ← pyFloatJ (← jGetD remote "signal" J.null)
  let noisef ← pyFloatJ (← jGetD remote "noisefloor" J.null)
  let dist ← pyFloatJ (← jGetD remote "distance" J.null)
  let stats1 ← jGetD remote "stats" (J.obj [])
  let txb ← pyNumJ (← jGetD stats1 "tx_bytes" J.null)
  if qLt txb 0 then
    throw "ValueError: Counters can only be incremented by non-negative amounts"
  let stats2 ← jGetD remote "stats" (J.obj [])
  let rxb ← pyNumJ (← jGetD stats2 "rx_bytes" J.null)
  if qLt rxb 0 then
    throw "ValueError: Counters can only be incremented by non-negative amounts"
  let am1 ← jGetD remote "airmax" (J.obj [])
  let amq ← pyFloatJ (← jGetD am1 "quality" J.null)
  let am2 ← jGetD remote "airmax" (J.obj [])
  let amc ← pyFloatJ (← jGetD am2 "capacity" J.null)
  let am3 ← jGetD remote "airmax" (J.obj [])
  let ampr ← pyFloatJ (← jGetD am3 "priority" J.null)
  let wlanUp ← pyIntJ (← jGetD remote "uptime" J.null)
  let devUp ← pyIntOpt (mcaGet m "uptime")
  let perc0 ← pyDivQ (wlanUp : ℚ) (devUp : ℚ)
  let perc := qMul perc0 100
  .ok
    [⟨"airos_remote_ccq_percent", lbls2, ccq⟩,
     ⟨"airos_remote_tx_rate_mbps", lbls2, txRate⟩,
     ⟨"airos_remote_rx_rate_mbps", lbls2, rxRate⟩,
     ⟨"airos_remote_tx_latency_seconds", lbls2, qDiv txLat 1000⟩,
     ⟨"airos_remote_rssi_dbm", lbls2, rssi⟩,
     ⟨"airos_remote_tx_power_dbm", lbls2, txpower⟩,
     ⟨"airos_remote_tx_signal_dbm", lbls2, signal⟩,
     ⟨"airos_remote_noise_floor_dbm", lbls2, noisef⟩,
     ⟨"airos_remote_distance_meters", lbls2, dist⟩,
     ⟨"airos_remote_tx_bytes_total", lbls2, txb⟩,
     ⟨"airos_remote_rx_bytes_total", lbls2, rxb⟩,
     ⟨"airos_remote_amq", lbls2, amq⟩,
     ⟨"airos_remote_amc", lbls2, amc⟩,
     ⟨"airos_remote_airmax_priority", lbls2, ampr⟩,
     ⟨"airos_remote_uptime_perc", lbls2, ((pyTrunc perc : ℤ) : ℚ)⟩]

/-- `for remote in airos.wstalist: ...` — append each completed peer
registry to `rr`; an exception aborts the loop. -/
def peerLoop (lbls : List (String × String)) (m : List (String × String)) :
    List J → Collect Unit
  | [] => pure ()
  | r :: rest => do
    let blk ← ofE (peerBlock lbls m r)
    modify fun s => { s with peers := s.peers ++ [blk] }
    peerLoop lbls m rest

/-- The decoded data the session's three queries deliver for one scrape.
Each query is forced at its first use inside the `try` block, so a
failing fetch/dec, too, is an exception at that point. -/
structure Device where
  mca : Except String (List (String × String))
  status : Except String J
  wstalist : Except String (List J)

/-- The body of the `try` block after a successful connect, up to (and
excluding) the final success indicator: every metric statement of
`application` in source order.  Returns the device label set. -/
def deriveMain (d : Device) : Collect (List (String × String)) := do
  let m ← ofE d.mca
  let lbls := labelsOf m
  gaugeStep lbls "airos_device_load_avg" (pyFloatOpt (mcaGet m "loadavg"))
  let memFree ← ofE (pyFloatOpt (mcaGet m "memFree"))
  let memTotal ← ofE (pyFloatOpt (mcaGet m "memTotal"))
  let memUsed := qSub memTotal memFree
  gaugeStep lbls "airos_device_ram_usage_percent"
    ((pyDivQ memUsed memTotal).map fun q => qMul q 100)
  gaugeStep lbls "airos_airmax_quality_percents" (pyFloatOpt (mcaGet m "wlanPollingQuality"))
  gaugeStep lbls "airos_airmax_capacity_percents" (pyFloatOpt (mcaGet m "wlanPollingCapacity"))
  gaugeStep lbls "airos_wlan_tx_rate_mbps" (pyFloatOpt (mcaGet m "wlanTxRate"))
  gaugeStep lbls "airos_wlan_rx_rate_mbps" (pyFloatOpt (mcaGet m "wlanRxRate"))
  gaugeStep lbls "airos_signal_dbm" (pyFloatOpt (mcaGet m "signal"))
  gaugeStep lbls "airos_chanbw_mhz" (pyFloatOpt (mcaGet m "chanbw"))
  gaugeStep lbls "airos_center_freq_mhz" (pyFloatOpt (mcaGet m "centerFreq"))
  gaugeStep lbls "airos_tx_power_dbm" (pyFloatOpt (mcaGet m "txPower"))
  gaugeStep lbls "airos_chain_0_signal_dbm" (pyFloatOpt (mcaGet m "chain0Signal"))
  gaugeStep lbls "airos_chain_1_signal_dbm" (pyFloatOpt (mcaGet m "chain1Signal"))
  gaugeStep lbls "airos_noise_dbm" (pyFloatOpt (mcaGet m "noise"))
  gaugeStep lbls "airos_distance_meter" (pyFloatOpt (mcaGet m "distance"))
  gaugeStep lbls "airos_lan_plugged" (pyFloatOpt (mcaGet m "lanPlugged"))
  gaugeStep lbls "airos_ccq_percent"
    ((pyFloatOpt (mcaGet m "ccq")).map fun q => qDiv q 10)
  let ws ← ofE d.wstalist
  gaugeStep lbls "airos_remote_devices" (.ok (ws.length : ℚ))
  gaugeStep lbls "airos_remote_devices_extra_reporting"
    ((countRemote ws).map fun n => (n : ℚ))
  counterStep lbls "airos_lan_rx_packets_total"
    ((pyIntOpt (mcaGet m "lanRxPackets")).map fun n => (n : ℚ))
  counterStep lbls "airos_lan_tx_packets_total"
    ((pyIntOpt (mcaGet m "lanTxPackets")).map fun n => (n : ℚ))
  counterStep lbls "airos_wlan_rx_packets_total"
    ((pyIntOpt (mcaGet m "wlanRxPackets")).map fun n => (n : ℚ))
  counterStep lbls "airos_wlan_tx_packets_total"
    ((pyIntOpt (mcaGet m "wlanTxPackets")).map fun n => (n : ℚ))
  counterStep lbls "airos_lan_rx_bytes_total"
    ((pyIntOpt (mcaGet m "lanRxBytes")).map fun n => (n : ℚ))
  counterStep lbls "airos_lan_tx_bytes_total"
    ((pyIntOpt (mcaGet m "lanTxBytes")).map fun n => (n : ℚ))
  counterStep lbls "airos_wlan_rx_bytes_total"
    ((pyIntOpt (mcaGet m "wlanRxBytes")).map fun n => (n : ℚ))
  counterStep lbls "airos_wlan_tx_bytes_total"
    ((pyIntOpt (mcaGet m "wlanTxBytes")).map fun n => (n : ℚ))
  let wlanUptime ← ofE (pyIntOpt (mcaGet m "wlanUptime"))
  let deviceUptime ← ofE (pyIntOpt (mcaGet m "uptime"))
  let uptimeperc ← ofE ((pyDivQ (wlanUptime : ℚ) (deviceUptime : ℚ)).map fun q => qMul q 100)
  gaugeStep lbls "airos_wireless_service_uptime_perc" (.ok ((pyTrunc uptimeperc : ℤ) : ℚ))
  gaugeStep lbls "airos_antenna_gain_dbm" (d.status >>= antennaGain)
  let st ← ofE d.status
  let util ← ofE (utilView st)
  let bp ← ofE (busyPercs util)
  gaugeStep lbls "airos_wlan_rx_busy_percentage" (.ok ((bp.1 : ℤ) : ℚ))
  gaugeStep lbls "airos_wlan_tx_busy_percentage" (.ok ((bp.2 : ℤ) : ℚ))
  peerLoop lbls m ws
  pure lbls

/-- The whole `try` block after connect: the pipeline followed by the
success indicator `airos_error = 0` registered into `r`. -/
def deriveBody (d : Device) : Collect Unit := do
  let lbls ← deriveMain d
  gaugeStep lbls "airos_error" (.ok 0)

/-- The collect operation of `application` for a scrape with a target:
run the `try` block; the `except` handler registers a single
`airos_error = 1` reading labelled with the failure text into the same
registry `r`; the response serializes registry `r` first, then each
completed peer registry. -/
def application_collect (conn : Except String Device) : List Reading :=
  match conn with
  | .error e => [⟨"airos_error", [("error", e)], 1⟩]
  | .ok d =>
    match runCollect (deriveBody d) ⟨[], []⟩ with
    | (.ok _, reg) => reg.r ++ reg.peers.flatten
    | (.error e, reg) => (reg.r ++ [⟨"airos_error", [("error", e)], 1⟩]) ++ reg.peers.flatten

example :
    application_collect (.error "boom") = [⟨"airos_error", [("error", "boom")], 1⟩] := by
  decide

/-!
## Helper lemmas
-/

theorem pyStartsWith_refl (s : String) : pyStartsWith s s = true := by
  rw [pyStartsWith, List.isPrefixOf_iff_prefix]

theorem pyStartsWith_trans {a b c : String}
    (h1 : pyStartsWith b a = true) (h2 : pyStartsWith c b = true) :
    pyStartsWith c a = true := by
  rw [pyStartsWith, List.isPrefixOf_iff_prefix] at h1 h2 ⊢
  exact h1.trans h2

theorem pyStartsWith_append (s t : String) : pyStartsWith (s ++ t) s = true := by
  rw [pyStartsWith, List.isPrefixOf_iff_prefix, String.data_append]
  exact List.prefix_append s.data t.data

/-- Dropping key-prefixed entries twice, at a key and at one of its own
prefixes, is the same as dropping at the shorter prefix alone. -/
theorem delStarting_absorb {q key : String} (hq : pyStartsWith key q = true)
    (l : List (String × String)) :
    delStarting (delStarting l key) q = delStarting l q := by
  rw [delStarting, delStarting, delStarting, List.filter_filter]
  refine List.filter_congr fun kv _ => ?_
  cases h : pyStartsWith kv.1 q with
  | true => simp [h]
  | false =>
    have hk : pyStartsWith kv.1 key = false := by
      by_contra hc
      rw [Bool.not_eq_false] at hc
      rw [pyStartsWith_trans hq hc] at h
      cases h
    simp [h, hk]

theorem delStarting_no_hit {key : String} {l : List (String × String)}
    {kv : String × String} (h : kv ∈ delStarting l key) :
    pyStartsWith kv.1 key = false := by
  rw [delStarting, List.mem_filter] at h
  simpa using h.2

/-- Storing a key none of the entries carry appends it. -/
theorem pySet_append {l : List (String × String)} {k : String}
    (h : ∀ kv ∈ l, kv.1 ≠ k) (v : String) :
    pySet l k v = l ++ [(k, v)] := by
  have hd : (l.any fun kv => decide (kv.1 = k)) = false := by
    rw [List.any_eq_false]
    intro kv hm
    simp [h kv hm]
  rw [pySet]
  simp [hd]

theorem charLe_total : ∀ a b : List Char, charLe a b = true ∨ charLe b a = true
  | [], _ => Or.inl rfl
  | _ :: _, [] => Or.inr rfl
  | a :: as, b :: bs => by
    by_cases hab : a = b
    · subst hab
      rcases charLe_total as bs with h | h
      · left; simpa [charLe] using h
      · right; simpa [charLe] using h
    · rcases lt_trichotomy a b with h | h | h
      · left; simp [charLe, hab, h]
      · exact absurd h hab
      · right
        simp [charLe, Ne.symm hab, h]

theorem charLe_trans : ∀ a b c : List Char,
    charLe a b = true → charLe b c = true → charLe a c = true
  | [], _, _, _, _ => rfl
  | _ :: _, [], _, hab, _ => by simp [charLe] at hab
  | _ :: _, _ :: _, [], _, hbc => by simp [charLe] at hbc
  | x :: xs, y :: ys, z :: zs, hab, hbc => by
    simp only [charLe] at hab hbc ⊢
    by_cases hxy : x = y <;> by_cases hyz : y = z
    · subst hxy; subst hyz
      rw [if_pos rfl] at hab hbc ⊢
      exact charLe_trans xs ys zs hab hbc
    · subst hxy
      rw [if_pos rfl] at hab
      rw [if_neg hyz] at hbc ⊢
      exact hbc
    · subst hyz
      rw [if_neg hxy] at hab
      rw [if_neg hxy]
      exact hab
    · rw [if_neg hxy] at hab
      rw [if_neg hyz] at hbc
      have hxz : x < z := lt_trans (of_decide_eq_true hab) (of_decide_eq_true hbc)
      rw [if_neg (ne_of_lt hxz)]
      exact decide_eq_true hxz

instance : IsTotal String keyLe :=
  ⟨fun a b => charLe_total a.data b.data⟩

instance : IsTrans String keyLe :=
  ⟨fun a b c => charLe_trans a.data b.data c.data⟩

/-!
## Claim theorems: the hierarchical store
-/

/-- C7: for every store and every segment `k` that is present neither as
a key nor as a dotted prefix of any key, the lookup never fails and
yields the empty store, and chained lookups on the empty store stay
defined and empty — so `store[a][b]` is always defined. -/
theorem missing_segment_yields_empty_store (c : Config) (k : String)
    (hfind : c.find k = none)
    (hpre : ∀ kv ∈ c.entries, pyStartsWith kv.1 (k ++ ".") = false) :
    c.getitem k = .store ⟨[]⟩ ∧ ∀ k2 : String, Config.getitem ⟨[]⟩ k2 = .store ⟨[]⟩ := by
  constructor
  · rw [Config.getitem, hfind]
    have hsub : subConfig c k = ⟨[]⟩ := by
      rw [subConfig]
      congr 1
      rw [List.filterMap_eq_nil_iff]
      intro kv hm
      simp [hpre kv hm]
    rw [hsub]
  · intro k2
    rfl

theorem missing_segment_yields_empty_store_witness :
    Config.getitem ⟨[("x.y", "1")]⟩ "a" = .store ⟨[]⟩ :=
  (missing_segment_yields_empty_store ⟨[("x.y", "1")]⟩ "a" (by decide) (by decide)).1

/-- C2 counterexample: a store with plain keys inserted in the order
`b`, `a` iterates `b` before `a` (dict insertion order), which is not
the lexicographically sorted order; only the text rendering sorts. -/
theorem iter_insertion_order_counterexample :
    Config.iter ⟨[("b", "1"), ("a", "2")]⟩ = .plain ["b", "a"] ∧
    ["b", "a"] ≠ ["a", "b"] ∧
    sortKeys ⟨[("b", "1"), ("a", "2")]⟩ = ["a", "b"] ∧
    Config.render ⟨[("b", "1"), ("a", "2")]⟩ = "a=2\nb=1" := by decide

/-- C2 amended: a store with no `0.`/`1.`-prefixed key iterates its keys
in insertion order, while the text rendering (`__str__`) lists the keys
in sorted order (a sorted permutation of the key list). -/
theorem iter_plain_insertion_order (c : Config)
    (h0 : ∀ kv ∈ c.entries, pyStartsWith kv.1 "0." = false)
    (h1 : ∀ kv ∈ c.entries, pyStartsWith kv.1 "1." = false) :
    c.iter = .plain (c.entries.map Prod.fst) ∧
    List.Sorted keyLe (sortKeys c) ∧
    (sortKeys c).Perm (c.entries.map Prod.fst) := by
  refine ⟨?_, List.sorted_insertionSort keyLe _, List.perm_insertionSort keyLe _⟩
  have d0 : (c.entries.any fun kv => pyStartsWith kv.1 "0.") = false :=
    List.any_eq_false.mpr fun kv hm => by simp [h0 kv hm]
  have d1 : (c.entries.any fun kv => pyStartsWith kv.1 "1.") = false :=
    List.any_eq_false.mpr fun kv hm => by simp [h1 kv hm]
  simp [Config.iter, d0, d1]

theorem iter_plain_insertion_order_witness :
    Config.iter ⟨[("b", "1"), ("a", "2")]⟩ =
      .plain (([("b", "1"), ("a", "2")] : List (String × String)).map Prod.fst) ∧
    List.Sorted keyLe (sortKeys ⟨[("b", "1"), ("a", "2")]⟩) ∧
    (sortKeys ⟨[("b", "1"), ("a", "2")]⟩).Perm
      (([("b", "1"), ("a", "2")] : List (String × String)).map Prod.fst) :=
  iter_plain_insertion_order ⟨[("b", "1"), ("a", "2")]⟩ (by decide) (by decide)

/-- The `takewhile` walk collects exactly the sub-stores at indices
`i, i+1, ...` while they are non-empty, stopping at the first empty
one, provided the fuel (the `range` bound) is not exhausted first. -/
theorem arrayIterFrom_spec (c : Config) :
    ∀ n i fuel : Nat, n < fuel →
      (∀ j, j < n → (c.subAt (i + j)).entries ≠ []) →
      (c.subAt (i + n)).entries = [] →
      arrayIterFrom c fuel i = (List.range' i n).map c.subAt := by
  intro n
  induction n with
  | zero =>
    intro i fuel hf _ hempty
    cases fuel with
    | zero => omega
    | succ f =>
      rw [arrayIterFrom]
      simp only [Nat.add_zero] at hempty
      rw [if_pos hempty]
      simp [List.range']
  | succ n ih =>
    intro i fuel hf hlt hempty
    cases fuel with
    | zero => omega
    | succ f =>
      rw [arrayIterFrom]
      have hne : ¬(c.subAt i).entries = [] := by
        have := hlt 0 (Nat.succ_pos n)
        simpa using this
      rw [if_neg hne]
      have hstep := ih (i + 1) f (by omega)
        (fun j hj => by
          have := hlt (j + 1) (by omega)
          have harith : i + (j + 1) = i + 1 + j := by omega
          rwa [harith] at this)
        (by
          have harith : i + (n + 1) = i + 1 + n := by omega
          rwa [harith] at hempty)
      rw [hstep]
      simp [List.range']

/-- A non-empty sub-store at index `i` means some key starts with
`str(i) + "."`, which is what `__iter__`'s detection tests. -/
theorem subAt_any (c : Config) (i : Nat) (h : (c.subAt i).entries ≠ []) :
    (c.entries.any fun kv => pyStartsWith kv.1 (toString i ++ ".")) = true := by
  rw [List.any_eq_true]
  by_contra hc
  push_neg at hc
  apply h
  rw [Config.subAt, subConfig]
  show List.filterMap _ _ = []
  rw [List.filterMap_eq_nil_iff]
  intro kv hm
  have := hc kv hm
  simp only [Bool.not_eq_true] at this
  simp [this]

/-- C5: if the keys form a 0-based contiguous numeric run of length
`n > 0` (sub-stores non-empty below `n`, empty at `n`), iteration yields
the sub-store at each successive index 0,...,n-1; with no `0.` key, a
1-based run iterates indices 1,...,n; with neither numeric prefix, it
falls back to plain key iteration — the 0-based convention is tested
first, then the 1-based one. -/
theorem iter_array_shape (c : Config) (n : Nat) :
    (0 < n → n < 2 ^ 32 →
      (∀ j, j < n → (c.subAt j).entries ≠ []) → (c.subAt n).entries = [] →
      c.iter = .array ((List.range' 0 n).map c.subAt)) ∧
    ((∀ kv ∈ c.entries, pyStartsWith kv.1 "0." = false) → 0 < n → n < 2 ^ 32 - 1 →
      (∀ j, j < n → (c.subAt (1 + j)).entries ≠ []) → (c.subAt (1 + n)).entries = [] →
      c.iter = .array ((List.range' 1 n).map c.subAt)) ∧
    ((∀ kv ∈ c.entries, pyStartsWith kv.1 "0." = false) →
      (∀ kv ∈ c.entries, pyStartsWith kv.1 "1." = false) →
      c.iter = .plain (c.entries.map Prod.fst)) := by
  refine ⟨?_, ?_, ?_⟩
  · intro hpos hb hlt hempty
    have hdet := subAt_any c 0 (hlt 0 hpos)
    have hs : (toString (0 : Nat) ++ "." : String) = "0." := by decide
    simp only [hs] at hdet
    rw [Config.iter, if_pos hdet]
    rw [arrayIterFrom_spec c n 0 (2 ^ 32) hb
      (fun j hj => by simpa using hlt j hj) (by simpa using hempty)]
  · intro h0 hpos hb hlt hempty
    have d0 : (c.entries.any fun kv => pyStartsWith kv.1 "0.") = false :=
      List.any_eq_false.mpr fun kv hm => by simp [h0 kv hm]
    have hdet := subAt_any c 1 (by simpa using hlt 0 hpos)
    have hs : (toString (1 : Nat) ++ "." : String) = "1." := by decide
    simp only [hs] at hdet
    rw [Config.iter, if_neg (by simp [d0]), if_pos hdet]
    rw [arrayIterFrom_spec c n 1 (2 ^ 32 - 1) hb hlt hempty]
  · intro h0 h1
    have d0 : (c.entries.any fun kv => pyStartsWith kv.1 "0.") = false :=
      List.any_eq_false.mpr fun kv hm => by simp [h0 kv hm]
    have d1 : (c.entries.any fun kv => pyStartsWith kv.1 "1.") = false :=
      List.any_eq_false.mpr fun kv hm => by simp [h1 kv hm]
    simp [Config.iter, d0, d1]

theorem iter_array_shape_witness :
    Config.iter ⟨[("0.a", "x"), ("1.a", "y")]⟩ =
      .array ((List.range' 0 2).map (Config.subAt ⟨[("0.a", "x"), ("1.a", "y")]⟩)) ∧
    Config.iter ⟨[("1.a", "x"), ("2.a", "y")]⟩ =
      .array ((List.range' 1 2).map (Config.subAt ⟨[("1.a", "x"), ("2.a", "y")]⟩)) :=
  ⟨(iter_array_shape ⟨[("0.a", "x"), ("1.a", "y")]⟩ 2).1
      (by decide) (by decide) (by decide) (by decide),
   (iter_array_shape ⟨[("1.a", "x"), ("2.a", "y")]⟩ 2).2.1
      (by decide) (by decide) (by decide) (by decide) (by decide)⟩

/-- `change` only inspects the entries that survive its own deletion
pass, so it may be computed on the pre-deleted store. -/
theorem change_eq_change_del (c : Config) (key : String) (v : Val) :
    Config.change c key v = Config.change ⟨delStarting c.entries key⟩ key v := by
  cases v with
  | str s =>
    simp only [Config.change]
    rw [delStarting_absorb (pyStartsWith_refl key)]
  | bool b =>
    simp only [Config.change]
    rw [delStarting_absorb (pyStartsWith_refl key)]
  | int n =>
    simp only [Config.change]
    rw [delStarting_absorb (pyStartsWith_refl key)]
  | dict l =>
    simp only [Config.change]
    rw [delStarting_absorb (pyStartsWith_refl key)]

mutual

/-- Everything `change` adds under `key` is again deleted by a pass at
any prefix `q` of `key`, so such a pass gives the same survivors before
and after the change. -/
theorem change_delStarting (q key : String) (hq : pyStartsWith key q = true) (c : Config) :
    (v : Val) → delStarting (Config.change c key v).entries q = delStarting c.entries q
  | .str s => by
    simp only [Config.change]
    have hnk : ∀ kv ∈ delStarting c.entries key, kv.1 ≠ key := by
      intro kv hm heq
      have hh := delStarting_no_hit hm
      rw [heq, pyStartsWith_refl] at hh
      cases hh
    show delStarting (pySet (delStarting c.entries key) key s) q = delStarting c.entries q
    rw [pySet_append hnk s]
    show List.filter _ (delStarting c.entries key ++ [(key, s)]) = delStarting c.entries q
    rw [List.filter_append]
    have h2 : List.filter (fun kv => !pyStartsWith kv.1 q) [(key, s)] = [] := by simp [hq]
    rw [h2, List.append_nil]
    exact delStarting_absorb hq c.entries
  | .bool b => by
    simp only [Config.change]
    have hnk : ∀ kv ∈ delStarting c.entries key, kv.1 ≠ key := by
      intro kv hm heq
      have hh := delStarting_no_hit hm
      rw [heq, pyStartsWith_refl] at hh
      cases hh
    show delStarting
      (pySet (delStarting c.entries key) key (if b then "enabled" else "disabled")) q =
        delStarting c.entries q
    rw [pySet_append hnk]
    show List.filter _
      (delStarting c.entries key ++ [(key, if b then "enabled" else "disabled")]) = _
    rw [List.filter_append]
    have h2 : List.filter (fun kv => !pyStartsWith kv.1 q)
        [(key, if b then "enabled" else "disabled")] = [] := by simp [hq]
    rw [h2, List.append_nil]
    exact delStarting_absorb hq c.entries
  | .int n => by
    simp only [Config.change]
    have hnk : ∀ kv ∈ delStarting c.entries key, kv.1 ≠ key := by
      intro kv hm heq
      have hh := delStarting_no_hit hm
      rw [heq, pyStartsWith_refl] at hh
      cases hh
    show delStarting (pySet (delStarting c.entries key) key (toString n)) q =
      delStarting c.entries q
    rw [pySet_append hnk]
    show List.filter _ (delStarting c.entries key ++ [(key, toString n)]) = _
    rw [List.filter_append]
    have h2 : List.filter (fun kv => !pyStartsWith kv.1 q) [(key, toString n)] = [] := by
      simp [hq]
    rw [h2, List.append_nil]
    exact delStarting_absorb hq c.entries
  | .dict l => by
    simp only [Config.change]
    exact (changeDict_delStarting q key hq ⟨delStarting c.entries key⟩ l).trans
      (delStarting_absorb hq c.entries)

/-- The recursive sub-key loop of `change` likewise only touches entries
under `key`. -/
theorem changeDict_delStarting (q key : String) (hq : pyStartsWith key q = true) :
    (c : Config) → (l : List (String × Val)) →
      delStarting (Config.changeDict c key l).entries q = delStarting c.entries q
  | _, [] => by simp [Config.changeDict]
  | c, (sub, v) :: rest => by
    simp only [Config.changeDict]
    have hsub : pyStartsWith (key ++ "." ++ sub) q = true := by
      have h1 : pyStartsWith (key ++ ".") key = true := pyStartsWith_append key "."
      have h2 : pyStartsWith (key ++ "." ++ sub) (key ++ ".") = true :=
        pyStartsWith_append (key ++ ".") sub
      exact pyStartsWith_trans hq (pyStartsWith_trans h1 h2)
    exact (changeDict_delStarting q key hq (c.change (key ++ "." ++ sub) v) rest).trans
      (change_delStarting q (key ++ "." ++ sub) hsub c v)

end

/-- C6: `change` is idempotent — applying it twice with the same path
and structured value yields exactly the same store (hence the same flat
key set and key-to-value mapping) as applying it once. -/
theorem change_idempotent (c : Config) (key : String) (v : Val) :
    Config.change (Config.change c key v) key v = Config.change c key v := by
  conv_lhs => rw [change_eq_change_del]
  rw [change_delStarting key key (pyStartsWith_refl key) c v]
  exact (change_eq_change_del c key v).symm

/-!
## Claim theorems: aliasing, caching, connection
-/

/-- C10: a `__missing__` lookup allocates a fresh store each time: every
existing cell — in particular the parent — is unchanged by the lookup,
the returned address is distinct from the parent, mutating the returned
store leaves the parent cell untouched, and a second lookup returns yet
another distinct fresh store. -/
theorem missingLookup_frame (h : ConfigHeap) (a : Nat) (key k2 v2 : String)
    (ha : a < h.cells.length) :
    (∀ b, b < h.cells.length → heapGet (missingLookup h a key).1 b = heapGet h b) ∧
    (missingLookup h a key).2 ≠ a ∧
    heapGet (setItem (missingLookup h a key).1 (missingLookup h a key).2 k2 v2) a =
      heapGet h a ∧
    (missingLookup (missingLookup h a key).1 a key).2 ≠ (missingLookup h a key).2 := by
  refine ⟨?_, ?_, ?_, ?_⟩
  · intro b hb
    simp only [missingLookup, heapGet]
    rw [List.get?_append hb]
  · simp only [missingLookup]
    omega
  · simp only [missingLookup, setItem, heapGet]
    rw [List.get?_set_ne _ _ (by omega)]
    rw [List.get?_append ha]
  · simp only [missingLookup, List.length_append, List.length_cons, List.length_nil]
    omega

theorem missingLookup_frame_witness :
    (∀ b, b < 1 → heapGet (missingLookup ⟨[[("a.b", "x")]]⟩ 0 "a").1 b =
      heapGet ⟨[[("a.b", "x")]]⟩ b) ∧
    (missingLookup ⟨[[("a.b", "x")]]⟩ 0 "a").2 ≠ 0 ∧
    heapGet (setItem (missingLookup ⟨[[("a.b", "x")]]⟩ 0 "a").1
      (missingLookup ⟨[[("a.b", "x")]]⟩ 0 "a").2 "z" "1") 0 = heapGet ⟨[[("a.b", "x")]]⟩ 0 ∧
    (missingLookup (missingLookup ⟨[[("a.b", "x")]]⟩ 0 "a").1 0 "a").2 ≠
      (missingLookup ⟨[[("a.b", "x")]]⟩ 0 "a").2 :=
  missingLookup_frame ⟨[[("a.b", "x")]]⟩ 0 "a" "z" "1" (by decide)

/-- C3: the source's `read_status_iter` deletes and refreshes the
`status` slot, not the `status_iter` slot.  With `status` never cached
it raises `KeyError`; with both cached within TTL it re-runs the
`ubntbox status` query through the `status` property while the
`status_iter` slot keeps its stale value and timestamp, so a following
`status_iter` access still returns the stale cache with no remote
query.  Its sibling `read_wstalist` invalidates and refetches its own
slot as the claim describes. -/
theorem read_status_iter_wrong_slot :
    (read_status_iter ⟨none, some (7, 0), none, none⟩ 1 (fun _ _ => 42) =
      .error "KeyError: status") ∧
    (read_status_iter ⟨some (5, 0), some (7, 0), none, none⟩ 1 (fun _ _ => 42) =
      .ok (42, ⟨some (42, 1), some (7, 0), none, none⟩, ["ubntbox status"])) ∧
    (statusIterProp ⟨some (42, 1), some (7, 0), none, none⟩ 2 (fun _ _ => 99) =
      (7, ⟨some (42, 1), some (7, 0), none, none⟩, [])) ∧
    (read_wstalist ⟨none, none, some (3, 0), none⟩ 1 (fun _ _ => 42) =
      .ok (42, ⟨none, none, some (42, 1), none⟩, ["wstalist"])) := by decide

/-- C4: when every attempt up to and including the final one fails with
a retryable transport failure, the caller receives the exhaustion error
(the final attempt's propagated transport failure), which is distinct
from the authentication failure, so callers can tell them apart. -/
theorem airos_connect_exhaustion (oracle : Nat → Outcome)
    (h : ∀ i, i ≤ 9 → oracle i = .transportFail) :
    (airos_connect oracle).2 = .error .transport ∧ ConnErr.transport ≠ ConnErr.auth := by
  refine ⟨?_, by decide⟩
  have e0 := h 0 (by omega)
  have e1 := h 1 (by omega)
  have e2 := h 2 (by omega)
  have e3 := h 3 (by omega)
  have e4 := h 4 (by omega)
  have e5 := h 5 (by omega)
  have e6 := h 6 (by omega)
  have e7 := h 7 (by omega)
  have e8 := h 8 (by omega)
  have e9 := h 9 (by omega)
  simp [airos_connect, connectLoop, e0, e1, e2, e3, e4, e5, e6, e7, e8, e9]

theorem airos_connect_exhaustion_witness :
    (airos_connect fun _ => .transportFail).2 = .error .transport ∧
    ConnErr.transport ≠ ConnErr.auth :=
  airos_connect_exhaustion (fun _ => .transportFail) fun _ _ => rfl

/-- C8: transport failures on the nine loop attempts followed by success
on the final attempt yield a connected session with a fixed 2-second
sleep between consecutive attempts; an authentication failure on the
first attempt raises immediately with no retry and no sleep. -/
theorem airos_connect_retry (oracle : Nat → Outcome) :
    ((∀ i, i < 9 → oracle i = .transportFail) → oracle 9 = .success →
      airos_connect oracle =
        ([.attempt 0, .sleepSec 2, .attempt 1, .sleepSec 2, .attempt 2, .sleepSec 2,
          .attempt 3, .sleepSec 2, .attempt 4, .sleepSec 2, .attempt 5, .sleepSec 2,
          .attempt 6, .sleepSec 2, .attempt 7, .sleepSec 2, .attempt 8, .sleepSec 2,
          .attempt 9], .ok ())) ∧
    (oracle 0 = .authFail → airos_connect oracle = ([.attempt 0], .error .auth)) := by
  constructor
  · intro h h9
    have e0 := h 0 (by omega)
    have e1 := h 1 (by omega)
    have e2 := h 2 (by omega)
    have e3 := h 3 (by omega)
    have e4 := h 4 (by omega)
    have e5 := h 5 (by omega)
    have e6 := h 6 (by omega)
    have e7 := h 7 (by omega)
    have e8 := h 8 (by omega)
    simp [airos_connect, connectLoop, e0, e1, e2, e3, e4, e5, e6, e7, e8, h9]
  · intro h0
    simp [airos_connect, connectLoop, h0]

theorem airos_connect_retry_witness :
    airos_connect (fun i => if i < 9 then .transportFail else .success) =
      ([.attempt 0, .sleepSec 2, .attempt 1, .sleepSec 2, .attempt 2, .sleepSec 2,
        .attempt 3, .sleepSec 2, .attempt 4, .sleepSec 2, .attempt 5, .sleepSec 2,
        .attempt 6, .sleepSec 2, .attempt 7, .sleepSec 2, .attempt 8, .sleepSec 2,
        .attempt 9], .ok ()) ∧
    airos_connect (fun _ => .authFail) = ([.attempt 0], .error .auth) :=
  ⟨(airos_connect_retry fun i => if i < 9 then .transportFail else .success).1
      (fun i hi => by simp [hi]) (by norm_num),
   (airos_connect_retry fun _ => .authFail).2 rfl⟩

/-!
## Claim theorems: the derivation pipeline
-/

/-- C9: the pipeline reads `busy`, `rx_busy` and `tx_busy` from the
wireless-utilization sub-object of the network-interface entry at the
fixed index 2 of the structured status view and computes
`rx_busy / busy * 100` and `tx_busy / busy * 100`, truncated to
integer — for any entries at indices 0 and 1 and any trailing
interfaces. -/
theorem busy_percentages (i0 i1 : J) (tail : List J) (rx tx b : ℚ) (hb : b ≠ 0) :
    statusBusy (J.obj [("interfaces", J.arr ([i0, i1,
      J.obj [("wireless", J.obj [("utilization", J.obj
        [("busy", J.num b), ("rx_busy", J.num rx), ("tx_busy", J.num tx)])])]] ++ tail))]) =
    .ok (pyTrunc (rx / b * 100), pyTrunc (tx / b * 100)) := by
  have h1 := pyDivQ_eq rx b hb
  have h2 := pyDivQ_eq tx b hb
  show (do
    let rq ← pyDivQ rx b
    let tq ← pyDivQ tx b
    Except.ok (pyTrunc (qMul rq 100), pyTrunc (qMul tq 100)) : Except String (ℤ × ℤ)) =
      .ok (pyTrunc (rx / b * 100), pyTrunc (tx / b * 100))
  rw [h1, h2]
  show Except.ok (pyTrunc (qMul (rx / b) 100), pyTrunc (qMul (tx / b) 100)) =
    .ok (pyTrunc (rx / b * 100), pyTrunc (tx / b * 100))
  rw [qMul_eq, qMul_eq]

theorem busy_percentages_witness :
    statusBusy (J.obj [("interfaces", J.arr ([J.obj [], J.obj [],
      J.obj [("wireless", J.obj [("utilization", J.obj
        [("busy", J.num 20), ("rx_busy", J.num 10), ("tx_busy", J.num 5)])])]] ++ []))]) =
    .ok (50, 25) := by
  have h := busy_percentages (J.obj []) (J.obj []) [] 10 5 20 (by norm_num)
  rw [h]
  have e1 : (10 / 20 * 100 : ℚ) = 50 := by norm_num
  have e2 : (5 / 20 * 100 : ℚ) = 25 := by norm_num
  rw [e1, e2]
  decide

/-- Running a sequenced `try`-block program: the suffix runs only if the
prefix did not raise, and the registry state threads through either
way. -/
theorem runCollect_bind {α β : Type} (x : Collect α) (f : α → Collect β) (s : Reg) :
    runCollect (x >>= f) s =
      match runCollect x s with
      | (.ok a, s1) => runCollect (f a) s1
      | (.error e, s1) => (.error e, s1) := by
  show ((x >>= f).run).run s =
    match runCollect x s with
    | (.ok a, s1) => runCollect (f a) s1
    | (.error e, s1) => (.error e, s1)
  rw [ExceptT.run_bind, StateT.run_bind]
  rcases hx : runCollect x s with ⟨res, s1⟩
  have hx' : (x.run).run s = (res, s1) := hx
  rw [hx']
  cases res <;> rfl

theorem runCollect_gaugeStep_ok (lbls : List (String × String)) (name : String) (q : ℚ)
    (s : Reg) :
    runCollect (gaugeStep lbls name (.ok q)) s =
      (.ok (), { s with r := s.r ++ [⟨name, lbls, q⟩] }) := rfl

/-- C1 amended: the `except` handler registers the `airos_error = 1`
reading into the same registry that already holds the readings
registered before the failure, so those are not discarded — the output
is the retained device readings, then the error reading, then any
completed peer blocks.  Only when the failure precedes every
registration (for example a connection failure) is the output exactly
the single error reading.  On success an `airos_error = 0` reading is
the last entry of the device registry. -/
theorem application_error_indicator (conn : Except String Device) :
    (∀ e, conn = .error e →
      application_collect conn = [⟨"airos_error", [("error", e)], 1⟩]) ∧
    (∀ d e reg, conn = .ok d →
      runCollect (deriveBody d) ⟨[], []⟩ = (.error e, reg) →
      application_collect conn =
        (reg.r ++ [⟨"airos_error", [("error", e)], 1⟩]) ++ reg.peers.flatten) ∧
    (∀ d reg, conn = .ok d →
      runCollect (deriveBody d) ⟨[], []⟩ = (.ok (), reg) →
      (∃ ls rs, reg.r = rs ++ [⟨"airos_error", ls, 0⟩]) ∧
      application_collect conn = reg.r ++ reg.peers.flatten) := by
  refine ⟨?_, ?_, ?_⟩
  · rintro e rfl
    rfl
  · rintro d e reg rfl hrun
    simp only [application_collect]
    rw [hrun]
  · rintro d reg rfl hrun
    refine ⟨?_, ?_⟩
    · have hb : deriveBody d =
          deriveMain d >>= fun lbls => gaugeStep lbls "airos_error" (.ok 0) := rfl
      rw [hb, runCollect_bind] at hrun
      rcases hx : runCollect (deriveMain d) ⟨[], []⟩ with ⟨res, s1⟩
      rw [hx] at hrun
      cases res with
      | error e => simp at hrun
      | ok lbls =>
        dsimp only at hrun
        rw [runCollect_gaugeStep_ok] at hrun
        have h2 : ({ s1 with r := s1.r ++ [⟨"airos_error", lbls, 0⟩] } : Reg) = reg :=
          congrArg Prod.snd hrun
        exact ⟨lbls, s1.r, by rw [← h2]⟩
    · simp only [application_collect]
      rw [hrun]

/-- A scrape input whose derivation registers the load-average reading
and then fails converting the missing `memFree` value. -/
def failingDevice : Device :=
  ⟨.ok [("apMac", "00:11"), ("deviceId", "d1"), ("deviceName", "ap"), ("loadavg", "1.5")],
   .ok (J.obj []), .ok []⟩

/-- C1 counterexample: a derivation failure after one reading was
registered yields that reading followed by `airos_error = 1` — two
readings, not a reading set consisting of exactly the error-indicator
reading alone. -/
theorem application_error_keeps_partial_readings :
    application_collect (.ok failingDevice) =
      [⟨"airos_device_load_avg",
        [("ap_mac", "00:11"), ("device_id", "d1"), ("device_name", "ap"),
         ("wireless_mode", "")], mkRat 3 2⟩,
       ⟨"airos_error",
        [("error",
          "TypeError: float() argument must be a string or a number, not NoneType")], 1⟩] ∧
    (application_collect (.ok failingDevice)).length = 2 := by decide

theorem application_error_indicator_witness :
    application_collect (.error "boom") = [⟨"airos_error", [("error", "boom")], 1⟩] ∧
    application_collect (.ok failingDevice) =
      ([⟨"airos_device_load_avg",
          [("ap_mac", "00:11"), ("device_id", "d1"), ("device_name", "ap"),
           ("wireless_mode", "")], mkRat 3 2⟩] ++
        [⟨"airos_error",
          [("error",
            "TypeError: float() argument must be a string or a number, not NoneType")],
          1⟩]) ++ ([] : List (List Reading)).flatten := by
  constructor
  · exact (application_error_indicator (.error "boom")).1 "boom" rfl
  · exact (application_error_indicator (.ok failingDevice)).2.1 failingDevice
      "TypeError: float() argument must be a string or a number, not NoneType"
      ⟨[⟨"airos_device_load_avg",
          [("ap_mac", "00:11"), ("device_id", "d1"), ("device_name", "ap"),
           ("wireless_mode", "")], mkRat 3 2⟩], []⟩ rfl (by decide)
